import Mathlib

/-!
Verification of the jaclog line-rendering engine (`src/jaclog/formatter.py`)
and session announcer (`src/jaclog/jaclog.py`).

Python strings are embedded as `List Char` (`Str`); text with embedded
newlines keeps the `'\n'` characters, and physical lines are recovered with
`linesOf`.  The modules `screen.py` and `settings.py` are not part of the
provided sources; the definitions taken from them are modelled from the spec
and marked as such.
-/

namespace Jaclog

/-- Python `str`, embedded as a list of characters. -/
abbrev Str := List Char

/-- Modelled from the spec: the fixed left margin (the source comment says
"indent 1 space for the sake of aesthetic"), from the missing `settings.py`. -/
def margin : Nat := 1

/-- Modelled from the spec: the fixed symbol-column width from the missing
`settings.py`.  The compact continuation branch drops the first two
indentation characters to let the glyph occupy the symbol column, so the
width is 2. -/
def symbolWidth : Nat := 2

/-- Modelled from the spec: the blank-line padding count around session
separators, from the missing `settings.py`. -/
def sessionTimeLinePadding : Nat := 1

/-- Modelled from the spec: the color-per-severity lookup table from the
missing `settings.py`: an enumerated-key table over debug, info, warning,
error, critical, plus `file`, `time` and the synthetic `launch` entry.  The
concrete color codes are representative values. -/
def colors (k : Str) : Option Str :=
  if k = "debug".data then Option.some ("38;5;242".data)
  else if k = "info".data then Option.some ("38;5;2".data)
  else if k = "warning".data then Option.some ("38;5;3".data)
  else if k = "error".data then Option.some ("38;5;1".data)
  else if k = "critical".data then Option.some ("38;5;199".data)
  else if k = "file".data then Option.some ("38;5;245".data)
  else if k = "time".data then Option.some ("38;5;240".data)
  else if k = "launch".data then Option.some ("38;5;118".data)
  else Option.none

/-- Modelled from the spec: the symbol-per-severity lookup table from the
missing `settings.py`: enumerated keys debug, info, warning, error, critical
plus the synthetic `launch` entry.  The glyphs are representative values. -/
def symbols (k : Str) : Option Str :=
  if k = "debug".data then Option.some ("•".data)
  else if k = "info".data then Option.some ("i".data)
  else if k = "warning".data then Option.some ("!".data)
  else if k = "error".data then Option.some ("✗".data)
  else if k = "critical".data then Option.some ("‼".data)
  else if k = "launch".data then Option.some ("☀".data)
  else Option.none

/-- The CSI introducer of an ANSI escape sequence. -/
def csi : Str := ['\x1b', '[']

/-- The SGR reset sequence. -/
def sgrReset : Str := ['\x1b', '[', '0', 'm']

/-- Modelled from the spec: `screen.sgr` from the missing `screen.py`, the
opaque styling primitive "wrapping text in terminal color-escape
sequences". -/
def sgr (text color : Str) : Str := csi ++ color ++ ['m'] ++ text ++ sgrReset

/-- Python `str.lower` (ASCII case, which covers the severity names). -/
def pyLower (s : Str) : Str := s.map Char.toLower

/-- The characters Python `str.strip()` removes (ASCII whitespace). -/
def isPySpace (c : Char) : Bool :=
  c = ' ' || c = '\t' || c = '\n' || c = '\r' || c = '\x0b' || c = '\x0c'

/-- Python `str.strip()`. -/
def pyStrip (s : Str) : Str :=
  ((s.dropWhile isPySpace).reverse.dropWhile isPySpace).reverse

/-- A line whose `strip()` is empty, i.e. the lines `textwrap.indent` leaves
unprefixed. -/
def blankLine (l : Str) : Bool := l.all isPySpace

/-- Split a text into its physical lines at `'\n'` (Python
`splitlines` restricted to the `'\n'` separator, which is the only
line separator the sources emit). -/
def linesOf : Str → List Str
  | [] => [[]]
  | c :: cs =>
    if c = '\n' then [] :: linesOf cs
    else
      match linesOf cs with
      | [] => [[c]]
      | l :: ls => (c :: l) :: ls

/-- Python `'\n'.join`. -/
def unlines : List Str → Str
  | [] => []
  | [l] => l
  | l :: ls => l ++ '\n' :: unlines ls

/-- Python `textwrap.indent(text, pre)`: prefix every non-blank line. -/
def indentPy (text pre : Str) : Str :=
  unlines ((linesOf text).map fun l => if blankLine l then l else pre ++ l)

/-- `n` spaces (Python `'\x20' * n`). -/
def spaces (n : Nat) : Str := List.replicate n ' '

/-- Python `f'{s:{w}}'` on a string: left-justify to minimum width `w`. -/
def padRight (s : Str) (w : Nat) : Str := s ++ List.replicate (w - s.length) ' '

/-- Decimal digits of a natural number. -/
def natStr (n : Nat) : Str := (Nat.repr n).data

/-- Zero-pad a number to two digits (Python `%02d` inside `timedelta.__str__`). -/
def pad2 (n : Nat) : Str := if n < 10 then '0' :: natStr n else natStr n

/-- Zero-pad a microsecond count to six digits. -/
def pad6 (n : Nat) : Str :=
  List.replicate (6 - (natStr n).length) '0' ++ natStr n

/-- Python `str(datetime.timedelta(microseconds=us))` for a non-negative
microsecond count: `[D day(s), ]H:MM:SS[.ffffff]`. -/
def timedeltaStrOfMicros (us : Int) : Str :=
  let u := us.toNat
  let days := u / 86400000000
  let rem := u % 86400000000
  let hours := rem / 3600000000
  let rem2 := rem % 3600000000
  let mins := rem2 / 60000000
  let rem3 := rem2 % 60000000
  let secs := rem3 / 1000000
  let micros := rem3 % 1000000
  let core := natStr hours ++ ":".data ++ pad2 mins ++ ":".data ++ pad2 secs
      ++ (if micros = 0 then [] else '.' :: pad6 micros)
  if days = 0 then core
  else natStr days ++ (if days = 1 then " day, ".data else " days, ".data) ++ core

/-- `str(datetime.timedelta(seconds=s))` for rational (float-modelled)
seconds; Python stores a whole number of microseconds (rounding; Python
rounds half to even, modelled here with `round`). -/
def timedeltaOfSeconds (s : ℚ) : Str := timedeltaStrOfMicros (round (s * 1000000))

/-- `logging.LogRecord`, restricted to the attributes the formatter reads.
`relativeCreated` is in milliseconds. -/
structure Record where
  levelname : Str
  name : Str
  filename : Str
  funcName : Str
  message : Str
  relativeCreated : Int
deriving DecidableEq

/-- `formatter._Last`: the renderer's memory of the previous record. -/
structure Last where
  head : Str
  relativeCreated : Int
deriving DecidableEq

/-- The initial `_Last(head='', relativeCreated=0)` set in
`Formatter.__init__`. -/
def freshLast : Last := ⟨[], 0⟩

/-- The header computation at the top of `Formatter.format`: the two styled
segments `head1` (symbol + subsystem) and `head2` (`[filename] funcName`),
joined by a space.  `Option.none` models the `KeyError` the source's table
indexing raises when the lowered severity name is missing from `colors` or
from `symbols` (the source performs the two lookups in that order, before
any other work). -/
def headOf (r : Record) : Option Str :=
  match colors (pyLower r.levelname), symbols (pyLower r.levelname) with
  | Option.some symbolColor, Option.some symbol =>
    let siteColor := (colors ("file".data)).getD []
    let subsystem := if r.name = "__main__".data then "main".data else r.name
    let head1 := sgr (padRight symbol symbolWidth ++ subsystem) symbolColor
    let head2 := sgr ('[' :: r.filename ++ "] ".data ++ r.funcName) siteColor
    Option.some (head1 ++ ' ' :: head2)
  | _, _ => Option.none

/-- In the source, `_timeLine` is defined as a method without `@property`
(and without a `return`), so the attribute `self._timeLine` read by
`_formatRegularly` is the bound method object: it is never `None`, and
interpolating it into an f-string yields its repr.  The repr's address part
varies per process; a fixed representative value is used. -/
def boundMethodRepr : Str :=
  "<bound method Formatter._timeLine of <jaclog.formatter.Formatter object at 0x0>>".data

/-- The value of the attribute `self._timeLine` as `_formatRegularly` sees
it: a bound method, hence never `None`. -/
def timeLineAttr : Option Str := Option.some boundMethodRepr

/-- The time-gap marker that the body of `_timeLine` computes into its local
variable `timeLine` (and, lacking a `return` statement, never yields):
`milliseconds = record.relativeCreated - last.relativeCreated`; a styled
elapsed line when `milliseconds > interval`, otherwise `None`.  This is
also the spec's intended marker. -/
def timeLineSpec (relativeCreated lastRelativeCreated interval : Int) : Option Str :=
  let milliseconds := relativeCreated - lastRelativeCreated
  if milliseconds > interval then
    Option.some (sgr ("  ─── ".data ++ timedeltaStrOfMicros (milliseconds * 1000)
      ++ " elapsed".data) ((colors ("time".data)).getD []))
  else Option.none

/-- `Formatter._formatRegularly`.  The branch condition
`self._timeLine is not None` reads the attribute modelled by
`timeLineAttr`, so the `None` branches are dead and the slot is filled with
the bound method's repr. -/
def formatRegularly (head message lastHead : Str) : Str :=
  let msg := indentPy message (spaces symbolWidth)
  if head = lastHead then
    match timeLineAttr with
    | Option.some tl => '\n' :: tl ++ "\n\n".data ++ msg
    | Option.none => '\n' :: msg
  else
    match timeLineAttr with
    | Option.some tl => '\n' :: tl ++ "\n\n".data ++ head ++ '\n' :: msg
    | Option.none => '\n' :: head ++ '\n' :: msg

/-- `Formatter._formatCompactly`. -/
def formatCompactly (head message lastHead : Str) (inOneLine : Bool) : Str :=
  let msg := indentPy message (spaces symbolWidth)
  if inOneLine then
    head ++ ' ' :: msg.drop symbolWidth
  else if head = lastHead then
    sgr ['·', ' '] ((colors ("time".data)).getD []) ++ msg.drop 2
  else
    head ++ '\n' :: msg

/-- `Formatter.format` for a formatter constructed with
`Formatter(compact, interval)`, over the previous-record state `last`.
Returns the produced text together with the new `_Last` value assigned at
the end of the call; `Except.error` models the `KeyError` raised by the
severity-table lookups. -/
def format (compact : Bool) (interval : Int) (last : Last) (r : Record) :
    Except Str (Str × Last) :=
  match headOf r with
  | Option.none => Except.error ("KeyError".data)
  | Option.some head =>
    let message := pyStrip r.message
    let inOneLine := "o:".data.isPrefixOf message
    let message := if inOneLine then message.drop 2 else message
    let lines := if !compact then formatRegularly head message last.head
                 else formatCompactly head message last.head inOneLine
    let last' : Last := ⟨head, r.relativeCreated⟩
    let lines := indentPy lines (spaces margin)
    Except.ok (lines, last')

/-- One stateful render step: in the source, the assignment
`self._last = _Last(...)` sits after the statements that can raise, so an
exception propagates to the caller with `_last` still holding its previous
value. -/
def formatStep (compact : Bool) (interval : Int) (last : Last) (r : Record) :
    Last × Except Str Str :=
  match format compact interval last r with
  | Except.ok (out, l') => (l', Except.ok out)
  | Except.error e => (last, Except.error e)

/-- The stripped message of a record (`super().format(record).strip()`). -/
def strippedMsg (r : Record) : Str := pyStrip r.message

/-- The `self._inOneLine` flag: the stripped message starts with `o:`. -/
def oneLineOf (r : Record) : Bool := "o:".data.isPrefixOf (strippedMsg r)

/-- The body text after the `o:` handling in `Formatter.format`. -/
def bodyOf (r : Record) : Str :=
  if oneLineOf r then (strippedMsg r).drop 2 else strippedMsg r

/-- Python `' '.join(argv)`. -/
def joinSpace : List Str → Str
  | [] => []
  | [a] => a
  | a :: rest => a ++ ' ' :: joinSpace rest

/-- `os.path.basename` (POSIX): the part after the last `/`. -/
def basename (s : Str) : Str := (s.reverse.takeWhile (fun c => c ≠ '/')).reverse

/-- The blank-line padding built by the loop in `_sessionTimeLine`. -/
def padBlank : List Str := List.replicate sessionTimeLinePadding ([] : Str)

/-- The separator line of `_sessionTimeLine`:
`'·' * (margin + symbolWidth) + f'[ {timedelta(seconds=seconds)} ]'`,
styled with the `time` color. -/
def sepLine (elapsedSeconds : ℚ) : Str :=
  sgr (List.replicate (margin + symbolWidth) '·' ++ "[ ".data
    ++ timedeltaOfSeconds elapsedSeconds ++ " ]".data) ((colors ("time".data)).getD [])

/-- `_sessionTimeLine`, parameterised by the externally read wall-clock gap
`seconds = time() - getmtime(logFile)` (a float, modelled as a rational):
when the gap exceeds the interval, the padded separator block, else
`None`. -/
def sessionTimeLine (elapsedSeconds interval : ℚ) : Option Str :=
  if elapsedSeconds > interval then
    Option.some (unlines (padBlank ++ [sepLine elapsedSeconds] ++ padBlank))
  else Option.none

/-- The launch-line part of `_logSessionLine`: styled launch symbol,
timestamp (`str(datetime.now())`, supplied externally as `nowStr`) and the
command (`basename(' '.join(argv))`), surrounded by one blank line
before/after in compact mode, two before in regular mode. -/
def launchPart (compact : Bool) (nowStr : Str) (argv : List Str) : Str :=
  let launchSymbol := sgr (padRight ((symbols ("launch".data)).getD []) symbolWidth)
      ((colors ("launch".data)).getD [])
  let timestamp := sgr nowStr ((colors ("time".data)).getD [])
  let cmd := sgr (basename (joinSpace argv)) ((colors ("launch".data)).getD [])
  let launchLine := ' ' :: launchSymbol ++ timestamp ++ ' ' :: cmd
  if compact then '\n' :: launchLine ++ "\n\n".data
  else "\n\n".data ++ launchLine ++ "\n\n".data

/-- The full block `_logSessionLine` appends to each destination:
`f'{timeLine or ""}{launchLine}'` wrapped in the dim escape
`\x1b[38;5;242m ... \x1b[0m`. -/
def sessionBlock (elapsed interval : ℚ) (compact : Bool) (nowStr : Str)
    (argv : List Str) : Str :=
  "\x1b[38;5;242m".data ++ ((sessionTimeLine elapsed interval).getD [])
    ++ launchPart compact nowStr argv ++ "\x1b[0m".data

/-- The `tty` argument of `_logSessionLine`: `None`, a `Path`, a `str`, or a
value of any other type. -/
inductive TTYArg
  | none
  | path (p : Str)
  | text (s : Str)
  | other
deriving DecidableEq

/-- A destination of an append performed by `_logSessionLine`. -/
inductive Dest
  | logFile
  | tty
deriving DecidableEq

/-- The error message of the `RuntimeError` raised for an unsupported `tty`
handle type. -/
def ttyTypeError : Str :=
  "argument `tty` must be either of type `Path` or `str`".data

/-- `_logSessionLine` with its side effects made explicit: the list of
appends it performs, in program order, together with the error it raises
(if any).  The source writes the block to `logFile` first and only then
dispatches on the type of `tty`, raising `RuntimeError` for an unsupported
handle type. -/
def logSessionLine (elapsed interval : ℚ) (compact : Bool) (nowStr : Str)
    (argv : List Str) (t : TTYArg) : List (Dest × Str) × Option Str :=
  let block := sessionBlock elapsed interval compact nowStr argv
  match t with
  | TTYArg.none => ([(Dest.logFile, block)], Option.none)
  | TTYArg.path _ => ([(Dest.logFile, block), (Dest.tty, block)], Option.none)
  | TTYArg.text _ => ([(Dest.logFile, block), (Dest.tty, block)], Option.none)
  | TTYArg.other => ([(Dest.logFile, block)], Option.some ttyTypeError)

/-- The record of the spec's worked example: first record, severity info,
subsystem `main`, file `app.py`, function `run`, message `started`. -/
def recA : Record :=
  ⟨"INFO".data, "main".data, "app.py".data, "run".data, "started".data, 0⟩

/-- The computed header of `recA` (all records below share its site). -/
def headA : Str := (headOf recA).getD []

/-- The spec example's second record: same site, message `step two`,
500 ms later. -/
def recA2 : Record := { recA with message := "step two".data, relativeCreated := 500 }

/-- A same-site record arriving 3000 ms after `recA` (gap above the default
2000 ms threshold). -/
def recA3 : Record := { recA with message := "later".data, relativeCreated := 3000 }

/-- A same-site record carrying a one-line (`o:`-prefixed) message. -/
def recO : Record := { recA with message := "o:hello".data, relativeCreated := 700 }

/-- A record whose severity name is not a key of the severity tables. -/
def recBad : Record :=
  ⟨"TRACE".data, "main".data, "app.py".data, "run".data, "boom".data, 0⟩

/-- A representative `str(datetime.now())` value for session-line tests. -/
def nowX : Str := "2026-10-12 10:00:00.000000".data

/-- A representative `sys.argv` for session-line tests. -/
def argvX : List Str := ["/usr/bin/app".data, "--flag".data]

/-- The Regular-mode text produced for `recA` from the fresh state. -/
def outA : Str :=
  indentPy ('\n' :: boundMethodRepr ++ "\n\n".data ++ headA ++ '\n'
    :: indentPy ("started".data) (spaces symbolWidth)) (spaces margin)

/-- The Regular-mode text produced for the one-line record `recO` from the
fresh state. -/
def outORegular : Str :=
  indentPy ('\n' :: boundMethodRepr ++ "\n\n".data ++ headA ++ '\n'
    :: indentPy ("hello".data) (spaces symbolWidth)) (spaces margin)

/-! ## Helper lemmas -/

lemma format_eq (compact : Bool) (iv : Int) (last : Last) (r : Record) (h : Str)
    (hh : headOf r = Option.some h) :
    format compact iv last r =
      Except.ok (indentPy (if !compact then formatRegularly h (bodyOf r) last.head
          else formatCompactly h (bodyOf r) last.head (oneLineOf r)) (spaces margin),
        ⟨h, r.relativeCreated⟩) := by
  unfold format
  rw [hh]
  simp only [bodyOf, oneLineOf, strippedMsg]

lemma headOf_none_of_miss (r : Record)
    (hmiss : colors (pyLower r.levelname) = Option.none ∨
      symbols (pyLower r.levelname) = Option.none) :
    headOf r = Option.none := by
  rcases hmiss with h | h
  · unfold headOf
    rw [h]
  · unfold headOf
    rw [h]
    cases colors (pyLower r.levelname) <;> rfl

lemma sgr_cons (text color : Str) :
    sgr text color = '\x1b' :: ('[' :: (color ++ 'm' :: (text ++ sgrReset))) := by
  simp [sgr, csi]

lemma headOf_shape (r : Record) (h : Str) (hh : headOf r = Option.some h) :
    ∃ t, h = '\x1b' :: t := by
  unfold headOf at hh
  cases hc : colors (pyLower r.levelname) with
  | none => rw [hc] at hh; exact absurd hh (by simp)
  | some symbolColor =>
    cases hs : symbols (pyLower r.levelname) with
    | none => rw [hc, hs] at hh; exact absurd hh (by simp)
    | some symbol =>
      rw [hc, hs] at hh
      simp only [Option.some.injEq] at hh
      subst hh
      rw [sgr_cons]
      exact ⟨_, by rw [List.cons_append]⟩

lemma formatRegularly_same (hd msg : Str) :
    formatRegularly hd msg hd =
      '\n' :: boundMethodRepr ++ "\n\n".data ++ indentPy msg (spaces symbolWidth) := by
  simp [formatRegularly, timeLineAttr]

lemma formatRegularly_diff (hd msg lh : Str) (hne : hd ≠ lh) :
    formatRegularly hd msg lh =
      '\n' :: boundMethodRepr ++ "\n\n".data ++ hd ++ '\n'
        :: indentPy msg (spaces symbolWidth) := by
  simp [formatRegularly, timeLineAttr, hne]

lemma formatCompactly_oneline (hd msg lh : Str) :
    formatCompactly hd msg lh true =
      hd ++ ' ' :: (indentPy msg (spaces symbolWidth)).drop symbolWidth := by
  simp [formatCompactly]

lemma formatCompactly_same (hd msg : Str) :
    formatCompactly hd msg hd false =
      sgr ['·', ' '] ((colors ("time".data)).getD [])
        ++ (indentPy msg (spaces symbolWidth)).drop 2 := by
  simp [formatCompactly]

lemma formatCompactly_diff (hd msg lh : Str) (hne : hd ≠ lh) :
    formatCompactly hd msg lh false =
      hd ++ '\n' :: indentPy msg (spaces symbolWidth) := by
  simp [formatCompactly, hne]

lemma linesOf_eq_single (l : Str) (hnl : '\n' ∉ l) : linesOf l = [l] := by
  induction l with
  | nil => rfl
  | cons c cs ih =>
    have hc : c ≠ '\n' := fun h => hnl (h ▸ List.mem_cons_self c cs)
    have hcs : '\n' ∉ cs := fun h => hnl (List.mem_cons_of_mem c h)
    unfold linesOf
    rw [if_neg hc, ih hcs]

lemma unlines_single (l : Str) : unlines [l] = l := rfl

lemma indentPy_single (l pre : Str) (hnl : '\n' ∉ l) (hb : blankLine l = false) :
    indentPy l pre = pre ++ l := by
  simp [indentPy, linesOf_eq_single l hnl, hb, unlines_single]

lemma blankLine_false_of_mem (l : Str) (c : Char) (hc : c ∈ l)
    (hs : isPySpace c = false) : blankLine l = false := by
  cases hb : blankLine l with
  | false => rfl
  | true =>
    exact absurd (List.all_eq_true.mp hb c hc) (by simp [hs])

lemma dropWhile_head_false {p : Char → Bool} :
    ∀ (l : List Char) (a : Char) (t : List Char),
      l.dropWhile p = a :: t → p a = false := by
  intro l
  induction l with
  | nil => intro a t h; simp [List.dropWhile] at h
  | cons c cs ih =>
    intro a t h
    by_cases hc : p c
    · rw [List.dropWhile_cons_of_pos hc] at h
      exact ih a t h
    · rw [List.dropWhile_cons_of_neg hc] at h
      cases h
      simpa using hc

lemma pyStrip_getLast_not_space (l : Str) (a : Char) (t : Str)
    (h : pyStrip l = t ++ [a]) : isPySpace a = false := by
  have hrev : ((l.dropWhile isPySpace).reverse.dropWhile isPySpace) = a :: t.reverse := by
    have := congrArg List.reverse h
    simpa [pyStrip] using this
  exact dropWhile_head_false _ a t.reverse hrev

lemma bodyOf_oneline (r : Record) (ho : oneLineOf r = true) :
    "o:".data ++ bodyOf r = strippedMsg r := by
  have hp : "o:".data <+: strippedMsg r := List.isPrefixOf_iff_prefix.mp ho
  obtain ⟨t, ht⟩ := hp
  have hdata : "o:".data = ['o', ':'] := rfl
  have hb : bodyOf r = t := by
    simp only [bodyOf, ho, if_pos]
    rw [← ht, hdata]
    rfl
  rw [hb, ht]

lemma bodyOf_getLast_not_space (r : Record) (ho : oneLineOf r = true)
    (a : Char) (t : Str) (h : bodyOf r = t ++ [a]) : isPySpace a = false := by
  have hs : strippedMsg r = ("o:".data ++ t) ++ [a] := by
    rw [← bodyOf_oneline r ho, h, List.append_assoc]
  exact pyStrip_getLast_not_space r.message a ("o:".data ++ t) hs

lemma indentPy_drop_body (r : Record) (ho : oneLineOf r = true)
    (hnl : '\n' ∉ bodyOf r) :
    (indentPy (bodyOf r) (spaces symbolWidth)).drop symbolWidth = bodyOf r := by
  rcases (bodyOf r).eq_nil_or_concat with hnil | ⟨t, a, hco⟩
  · rw [hnil]; rfl
  · rw [List.concat_eq_append] at hco
    have hbl : blankLine (bodyOf r) = false := by
      refine blankLine_false_of_mem _ a ?_ (bodyOf_getLast_not_space r ho a t hco)
      rw [hco]; simp
    rw [indentPy_single _ _ hnl hbl]
    simp [spaces, symbolWidth, List.replicate]

lemma format_eq_regular (iv : Int) (last : Last) (r : Record) (h : Str)
    (hh : headOf r = Option.some h) :
    format false iv last r =
      Except.ok (indentPy (formatRegularly h (bodyOf r) last.head) (spaces margin),
        ⟨h, r.relativeCreated⟩) := by
  rw [format_eq false iv last r h hh]
  rfl

lemma format_eq_compact (iv : Int) (last : Last) (r : Record) (h : Str)
    (hh : headOf r = Option.some h) :
    format true iv last r =
      Except.ok (indentPy (formatCompactly h (bodyOf r) last.head (oneLineOf r))
        (spaces margin), ⟨h, r.relativeCreated⟩) := by
  rw [format_eq true iv last r h hh]
  rfl

/-! ## Claim theorems -/

/-- Claim C1 (code bug): for a same-site record arriving 500 ms after the
previous one — a gap below the 2000 ms threshold, for which the claim says
no marker line appears — the Regular-mode render nevertheless fills the
time-gap slot with a line (the repr of the bound method `_timeLine`),
while the marker the dead body of `_timeLine` computes is `None`. -/
theorem c1_slot_line_despite_small_gap :
    timeLineSpec recA2.relativeCreated recA.relativeCreated 2000 = Option.none ∧
    format false 2000 ⟨headA, 0⟩ recA2 =
      Except.ok (indentPy ('\n' :: boundMethodRepr ++ "\n\n".data
        ++ indentPy ("step two".data) (spaces symbolWidth)) (spaces margin),
        ⟨headA, 500⟩) :=
  ⟨rfl, rfl⟩

/-- Claim C3 (code bug): for a same-site record whose gap (3000 ms) exceeds
the 2000 ms threshold — so the claim requires a time-gap marker line in both
modes — the marker the dead `_timeLine` body computes is present as a value,
but the Compact-mode output is only the continuation glyph plus the body,
and the Regular-mode output carries the bound-method repr instead of the
elapsed-duration line. -/
theorem c3_no_marker_when_gap_exceeds :
    (timeLineSpec recA3.relativeCreated recA.relativeCreated 2000).isSome = true ∧
    format true 2000 ⟨headA, 0⟩ recA3 =
      Except.ok (indentPy (sgr ['·', ' '] ((colors ("time".data)).getD [])
        ++ (indentPy ("later".data) (spaces symbolWidth)).drop 2) (spaces margin),
        ⟨headA, 3000⟩) ∧
    format false 2000 ⟨headA, 0⟩ recA3 =
      Except.ok (indentPy ('\n' :: boundMethodRepr ++ "\n\n".data
        ++ indentPy ("later".data) (spaces symbolWidth)) (spaces margin),
        ⟨headA, 3000⟩) :=
  ⟨rfl, rfl, rfl⟩

/-- Claim C2, counterexample: rendering the one-line record `recO` in
Compact mode when the previous header is identical still prints the header:
the output literally contains the header text. -/
theorem c2_counterexample :
    format true 2000 ⟨headA, 0⟩ recO =
      Except.ok (spaces margin ++ headA ++ ' ' :: "hello".data, ⟨headA, 700⟩) ∧
    headA <:+: (spaces margin ++ headA ++ ' ' :: "hello".data) :=
  ⟨rfl, ⟨spaces margin, ' ' :: "hello".data, rfl⟩⟩

/-- Claim C2 (amended): when the computed header equals the stored one, the
second render's output omits the header in Regular mode and — provided the
message is not the one-line `o:` variant — in Compact mode, where the
continuation glyph replaces it; the Compact one-line variant always
reprints the header.  The header-free outputs are given by expressions in
which the header does not occur. -/
theorem c2_amended (iv : Int) (last : Last) (r : Record) (h : Str)
    (hh : headOf r = Option.some h) (hsame : h = last.head) :
    format false iv last r =
      Except.ok (indentPy ('\n' :: boundMethodRepr ++ "\n\n".data
        ++ indentPy (bodyOf r) (spaces symbolWidth)) (spaces margin),
        ⟨h, r.relativeCreated⟩) ∧
    (oneLineOf r = false →
      format true iv last r =
        Except.ok (indentPy (sgr ['·', ' '] ((colors ("time".data)).getD [])
          ++ (indentPy (bodyOf r) (spaces symbolWidth)).drop 2) (spaces margin),
          ⟨h, r.relativeCreated⟩)) ∧
    (oneLineOf r = true →
      format true iv last r =
        Except.ok (indentPy (h ++ ' '
          :: (indentPy (bodyOf r) (spaces symbolWidth)).drop symbolWidth)
          (spaces margin), ⟨h, r.relativeCreated⟩)) := by
  refine ⟨?_, ?_, ?_⟩
  · rw [format_eq_regular iv last r h hh, ← hsame, formatRegularly_same]
  · intro hol
    rw [format_eq_compact iv last r h hh, hol, ← hsame, formatCompactly_same]
  · intro hol
    rw [format_eq_compact iv last r h hh, hol, formatCompactly_oneline]

/-- Witness for `c2_amended`: the spec example's first record rendered over
a state already holding its own header. -/
theorem c2_witness :
    headOf recA = Option.some headA ∧
    format false 2000 ⟨headA, 0⟩ recA =
      Except.ok (indentPy ('\n' :: boundMethodRepr ++ "\n\n".data
        ++ indentPy (bodyOf recA) (spaces symbolWidth)) (spaces margin),
        ⟨headA, 0⟩) :=
  ⟨rfl, (c2_amended 2000 ⟨headA, 0⟩ recA headA rfl rfl).1⟩

/-- Claim C4, counterexample: in Regular mode the one-line record `recO`
does not render as one physical line: the output contains newlines (header
and body sit on distinct lines, below the time-slot line). -/
theorem c4_counterexample :
    format false 2000 freshLast recO = Except.ok (outORegular, ⟨headA, 700⟩) ∧
    '\n' ∈ outORegular :=
  ⟨rfl, by decide⟩

/-- Claim C4 (amended): in Compact mode, a record whose stripped message
starts with `o:` and whose remainder and computed header are free of
newlines renders as exactly one physical line — margin, header, space and
the stripped message — and that line contains no gap marker (Compact mode
never emits one). -/
theorem c4_amended (iv : Int) (last : Last) (r : Record) (h : Str)
    (hh : headOf r = Option.some h) (ho : oneLineOf r = true)
    (hb : '\n' ∉ bodyOf r) (hhd : '\n' ∉ h) :
    format true iv last r =
      Except.ok (spaces margin ++ h ++ ' ' :: bodyOf r, ⟨h, r.relativeCreated⟩) ∧
    '\n' ∉ (spaces margin ++ h ++ ' ' :: bodyOf r) := by
  obtain ⟨t, hht⟩ := headOf_shape r h hh
  have hline : '\n' ∉ (h ++ ' ' :: bodyOf r) := by
    intro hmem
    rcases List.mem_append.mp hmem with h1 | h2
    · exact hhd h1
    · rcases List.mem_cons.mp h2 with h3 | h4
      · exact absurd h3 (by decide)
      · exact hb h4
  have hbl : blankLine (h ++ ' ' :: bodyOf r) = false := by
    refine blankLine_false_of_mem _ '\x1b' ?_ (by decide)
    rw [hht]
    simp
  constructor
  · rw [format_eq_compact iv last r h hh, ho, formatCompactly_oneline,
      indentPy_drop_body r ho hb, indentPy_single _ _ hline hbl]
    simp [List.append_assoc]
  · intro hmem
    rcases List.mem_append.mp hmem with h12 | h3
    · rcases List.mem_append.mp h12 with h1 | h2
      · simp only [spaces] at h1
        exact absurd (List.eq_of_mem_replicate h1) (by decide)
      · exact hhd h2
    · rcases List.mem_cons.mp h3 with h5 | h6
      · exact absurd h5 (by decide)
      · exact hb h6

/-- Witness for `c4_amended`: the one-line record `recO` rendered in
Compact mode from the fresh state. -/
theorem c4_witness :
    oneLineOf recO = true ∧
    (format true 2000 freshLast recO =
      Except.ok (spaces margin ++ headA ++ ' ' :: bodyOf recO, ⟨headA, 700⟩) ∧
    '\n' ∉ (spaces margin ++ headA ++ ' ' :: bodyOf recO)) :=
  ⟨rfl, c4_amended 2000 freshLast recO headA rfl rfl (by decide) (by decide)⟩

/-- Claim C5: when the destination's last modification lies more than
`interval` seconds in the past, the appended session block carries the
padded separator block before the launch part; for a destination modified
1 s ago with a 5 s interval, the appended block is the launch part alone,
with no separator. -/
theorem c5_session_separator (elapsed interval : ℚ) (compact : Bool)
    (nowStr : Str) (argv : List Str) :
    (elapsed > interval →
      (logSessionLine elapsed interval compact nowStr argv TTYArg.none).1 =
        [(Dest.logFile, "\x1b[38;5;242m".data
          ++ unlines (padBlank ++ [sepLine elapsed] ++ padBlank)
          ++ launchPart compact nowStr argv ++ "\x1b[0m".data)]) ∧
    (logSessionLine 1 5 compact nowStr argv TTYArg.none).1 =
      [(Dest.logFile, "\x1b[38;5;242m".data ++ launchPart compact nowStr argv
        ++ "\x1b[0m".data)] := by
  constructor
  · intro hgt
    simp only [logSessionLine, sessionBlock, sessionTimeLine]
    rw [if_pos hgt]
    simp
  · simp only [logSessionLine, sessionBlock, sessionTimeLine]
    rw [if_neg (show ¬ ((1 : ℚ) > 5) by norm_num)]
    simp

/-- Witness for `c5_session_separator`: a 6 s gap against a 5 s interval. -/
theorem c5_witness :
    (6 : ℚ) > 5 ∧
    (logSessionLine 6 5 true nowX argvX TTYArg.none).1 =
      [(Dest.logFile, "\x1b[38;5;242m".data
        ++ unlines (padBlank ++ [sepLine 6] ++ padBlank)
        ++ launchPart true nowX argvX ++ "\x1b[0m".data)] :=
  ⟨by decide, (c5_session_separator 6 5 true nowX argvX).1 (by decide)⟩

/-- Claim C6: when the lowered severity name is missing from the `colors`
table or from the `symbols` table, `format` raises to the caller, and the
`_Last` state is unchanged by the failed call (the assignment to
`self._last` sits after the raising lookups). -/
theorem c6_unknown_severity (compact : Bool) (iv : Int) (last : Last)
    (r : Record)
    (hmiss : colors (pyLower r.levelname) = Option.none ∨
      symbols (pyLower r.levelname) = Option.none) :
    (formatStep compact iv last r).1 = last ∧
    ∃ e, (formatStep compact iv last r).2 = Except.error e := by
  have hh := headOf_none_of_miss r hmiss
  unfold formatStep format
  rw [hh]
  exact ⟨rfl, ⟨_, rfl⟩⟩

/-- Witness for `c6_unknown_severity`: the severity name `TRACE` is not a
key of the tables. -/
theorem c6_witness :
    (colors (pyLower recBad.levelname) = Option.none ∨
      symbols (pyLower recBad.levelname) = Option.none) ∧
    ((formatStep false 2000 freshLast recBad).1 = freshLast ∧
      ∃ e, (formatStep false 2000 freshLast recBad).2 = Except.error e) :=
  ⟨Or.inl (by decide),
    c6_unknown_severity false 2000 freshLast recBad (Or.inl (by decide))⟩

/-- Claim C7, counterexample: announcing with an unsupported `tty` handle
type raises the configuration error, but the session block has already been
appended to the primary destination: the write list is not empty. -/
theorem c7_counterexample :
    logSessionLine 1 5 true nowX argvX TTYArg.other =
      ([(Dest.logFile, sessionBlock 1 5 true nowX argvX)],
        Option.some ttyTypeError) :=
  rfl

/-- Claim C7 (amended): for an unsupported `tty` handle type the
configuration error is raised, but only after the block has been appended
to the primary destination; no write to the tty destination occurs. -/
theorem c7_amended (elapsed interval : ℚ) (compact : Bool) (nowStr : Str)
    (argv : List Str) :
    logSessionLine elapsed interval compact nowStr argv TTYArg.other =
      ([(Dest.logFile, sessionBlock elapsed interval compact nowStr argv)],
        Option.some ttyTypeError) :=
  rfl

/-- Claim C8: every successful `format` call returns the state
`{computed header, record.relativeCreated}`, unconditionally. -/
theorem c8_state_is_head_and_time (compact : Bool) (iv : Int) (last : Last)
    (r : Record) (out : Str) (l' : Last)
    (hok : format compact iv last r = Except.ok (out, l')) :
    ∃ hd, headOf r = Option.some hd ∧ l' = ⟨hd, r.relativeCreated⟩ := by
  unfold format at hok
  cases hh : headOf r with
  | none => rw [hh] at hok; exact absurd hok (by simp)
  | some hd =>
    rw [hh] at hok
    simp only [Except.ok.injEq, Prod.mk.injEq] at hok
    exact ⟨hd, rfl, hok.2.symm⟩

/-- Witness for `c8_state_is_head_and_time`: the first render of `recA`. -/
theorem c8_witness :
    format false 2000 freshLast recA = Except.ok (outA, ⟨headA, 0⟩) ∧
    ∃ hd, headOf recA = Option.some hd ∧
      (⟨headA, 0⟩ : Last) = ⟨hd, recA.relativeCreated⟩ :=
  ⟨rfl, c8_state_is_head_and_time false 2000 freshLast recA outA ⟨headA, 0⟩ rfl⟩

/-- Claim C9: from the fresh state (`head=''`, time 0), the first render
takes the different-site path in both modes — the header is printed and the
continuation glyph is not used — because a computed header is never the
empty string. -/
theorem c9_first_render_prints_header (iv : Int) (r : Record) (h : Str)
    (hh : headOf r = Option.some h) :
    h ≠ freshLast.head ∧
    format false iv freshLast r =
      Except.ok (indentPy ('\n' :: boundMethodRepr ++ "\n\n".data ++ h ++ '\n'
        :: indentPy (bodyOf r) (spaces symbolWidth)) (spaces margin),
        ⟨h, r.relativeCreated⟩) ∧
    format true iv freshLast r =
      Except.ok (indentPy (if oneLineOf r then h ++ ' '
          :: (indentPy (bodyOf r) (spaces symbolWidth)).drop symbolWidth
        else h ++ '\n' :: indentPy (bodyOf r) (spaces symbolWidth))
        (spaces margin), ⟨h, r.relativeCreated⟩) := by
  obtain ⟨t, hht⟩ := headOf_shape r h hh
  have hne : h ≠ freshLast.head := by rw [hht]; simp [freshLast]
  refine ⟨hne, ?_, ?_⟩
  · rw [format_eq_regular iv freshLast r h hh, formatRegularly_diff _ _ _ hne]
  · rw [format_eq_compact iv freshLast r h hh]
    cases ho : oneLineOf r
    · rw [formatCompactly_diff _ _ _ hne]
      simp
    · rw [formatCompactly_oneline]
      simp

/-- Witness for `c9_first_render_prints_header`: the first render of
`recA`. -/
theorem c9_witness :
    headOf recA = Option.some headA ∧
    (headA ≠ freshLast.head ∧
    format false 2000 freshLast recA =
      Except.ok (indentPy ('\n' :: boundMethodRepr ++ "\n\n".data ++ headA ++ '\n'
        :: indentPy (bodyOf recA) (spaces symbolWidth)) (spaces margin),
        ⟨headA, recA.relativeCreated⟩) ∧
    format true 2000 freshLast recA =
      Except.ok (indentPy (if oneLineOf recA then headA ++ ' '
          :: (indentPy (bodyOf recA) (spaces symbolWidth)).drop symbolWidth
        else headA ++ '\n' :: indentPy (bodyOf recA) (spaces symbolWidth))
        (spaces margin), ⟨headA, recA.relativeCreated⟩)) :=
  ⟨rfl, c9_first_render_prints_header 2000 recA headA rfl⟩

/-- Claim C10: for a record whose stripped message starts with `o:`, the
Regular-mode render strips the two-character prefix and lays the remainder
out as the ordinary indented multi-line body; the one-line flag plays no
role in the Regular-mode layout. -/
theorem c10_regular_strips_prefix (iv : Int) (last : Last) (r : Record)
    (h : Str) (hh : headOf r = Option.some h) (ho : oneLineOf r = true) :
    format false iv last r =
      Except.ok (indentPy
        (if h = last.head then
          '\n' :: boundMethodRepr ++ "\n\n".data
            ++ indentPy ((pyStrip r.message).drop 2) (spaces symbolWidth)
        else
          '\n' :: boundMethodRepr ++ "\n\n".data ++ h ++ '\n'
            :: indentPy ((pyStrip r.message).drop 2) (spaces symbolWidth))
        (spaces margin), ⟨h, r.relativeCreated⟩) := by
  have hbody : bodyOf r = (pyStrip r.message).drop 2 := by
    simp [bodyOf, ho, strippedMsg]
  rw [format_eq_regular iv last r h hh, ← hbody]
  by_cases hd : h = last.head
  · rw [if_pos hd, hd, formatRegularly_same]
  · rw [if_neg hd, formatRegularly_diff _ _ _ hd]

/-- Witness for `c10_regular_strips_prefix`: the one-line record `recO`
rendered in Regular mode from the fresh state. -/
theorem c10_witness :
    oneLineOf recO = true ∧
    format false 2000 freshLast recO =
      Except.ok (indentPy
        (if headA = freshLast.head then
          '\n' :: boundMethodRepr ++ "\n\n".data
            ++ indentPy ((pyStrip recO.message).drop 2) (spaces symbolWidth)
        else
          '\n' :: boundMethodRepr ++ "\n\n".data ++ headA ++ '\n'
            :: indentPy ((pyStrip recO.message).drop 2) (spaces symbolWidth))
        (spaces margin), ⟨headA, recO.relativeCreated⟩) :=
  ⟨rfl, c10_regular_strips_prefix 2000 freshLast recO headA rfl rfl⟩

end Jaclog
